import Mathlib

/-
  Verification development for the Medgemma chat bridge
  (nodejs-ai-assistant/src/agents/triage/MedgemmaAgent.ts).

  The agent's message handler is embedded as a pure function from the
  inbound event, the configuration, and the remote endpoint's behaviour
  to a trace of chat-side effects plus the updated agent state.  Dynamic
  JavaScript values returned by the remote endpoint are modelled by the
  inductive family `JVal`/`JArr`/`JObj`.
-/

namespace Medgemma

/-
  `JVal`: a dynamically-typed JavaScript value, as handled by the agent when
  it normalizes remote results.  `jnull` stands for both `null` and
  `undefined` wherever the two behave identically (falsiness, `??`,
  `Array.isArray`); places where the distinction matters use `Option JVal`
  with `none` for an absent (`undefined`) value.
-/
mutual
inductive JVal : Type where
  | jnull : JVal
  | jbool : Bool → JVal
  | jnum : Int → JVal
  | jstr : String → JVal
  | jarr : JArr → JVal
  | jobj : JObj → JVal

inductive JArr : Type where
  | nil : JArr
  | cons : JVal → JArr → JArr

inductive JObj : Type where
  | nil : JObj
  | cons : String → JVal → JObj → JObj
end

/-- The elements of a JS array, as a Lean list. -/
def JArr.toList : JArr → List JVal
  | .nil => []
  | .cons v rest => v :: JArr.toList rest

/-- Build a JS array from a Lean list of values. -/
def JArr.ofList : List JVal → JArr
  | [] => .nil
  | v :: rest => .cons v (JArr.ofList rest)

/-- Property access `obj[k]` on a JS object: the value at the first
occurrence of key `k`, `none` when the property is absent. -/
def JObj.get : JObj → String → Option JVal
  | .nil, _ => none
  | .cons k v rest, key => if k = key then some v else JObj.get rest key

/-- JS truthiness of a value (`Boolean(v)`). -/
def jsTruthy : JVal → Bool
  | .jnull => false
  | .jbool b => b
  | .jnum n => n != 0
  | .jstr s => s ≠ ""
  | .jarr _ => true
  | .jobj _ => true

/-- JS `Array.isArray(v)`. -/
def isArr : JVal → Bool
  | .jarr _ => true
  | _ => false

/-
  `jsToString`: JS `String(v)` conversion (arrays join their elements with
  `","`, `null`/`undefined` elements rendering as the empty string).
-/
mutual
def jsToString : JVal → String
  | .jnull => "null"
  | .jbool b => cond b "true" "false"
  | .jnum n => toString n
  | .jstr s => s
  | .jarr xs => String.intercalate "," (jsToStringArr xs)
  | .jobj _ => "[object Object]"

def jsToStringArr : JArr → List String
  | .nil => []
  | .cons v rest =>
      (match v with
       | .jnull => ""
       | v => jsToString v) :: jsToStringArr rest
end

/-- JS `[obj.response, obj.text, obj.output].find(v => typeof v === 'string')`:
the first of the three properties whose value is a string. -/
def firstStringField (fs : JObj) : Option String :=
  match fs.get "response" with
  | some (.jstr s) => some s
  | _ =>
    match fs.get "text" with
    | some (.jstr s) => some s
    | _ =>
      match fs.get "output" with
      | some (.jstr s) => some s
      | _ => none

/-
  `parseText`: the recursive text extraction of `handleMessage`
  (MedgemmaAgent.ts lines 102-113): falsy data yields `""`; strings are
  returned as-is; arrays map `parseText` over their elements, drop falsy
  results and join with a newline; objects return the first string among
  `response`/`text`/`output` when it is truthy, else recurse into an
  array-valued `data` property, else fall through to `String(data)`.
  `parseTextObj` scans the object's properties for the first occurrence of
  `data` (the lookup `obj.data` restricted to what the fallback needs),
  keeping the recursion structural.
-/
mutual
def parseText : JVal → String
  | .jnull => ""
  | .jbool b => cond b "true" ""
  | .jnum n => if n = 0 then "" else toString n
  | .jstr s => s
  | .jarr xs => String.intercalate "\n" ((parseTextArr xs).filter (fun s => s ≠ ""))
  | .jobj fs =>
      match firstStringField fs with
      | some s => if s ≠ "" then s else parseTextObj fs
      | none => parseTextObj fs

def parseTextArr : JArr → List String
  | .nil => []
  | .cons v rest => parseText v :: parseTextArr rest

def parseTextObj : JObj → String
  | .nil => "[object Object]"
  | .cons k v rest =>
      if k = "data" then
        match v with
        | .jarr xs =>
            String.intercalate "\n" ((parseTextArr xs).filter (fun s => s ≠ ""))
        | _ => "[object Object]"
      else parseTextObj rest
end

/-- Property access `v.data` in JS: only objects carry named properties
(`someArray.data` and `someString.data` are `undefined`). -/
def jGet : JVal → String → Option JVal
  | .jobj fs, k => fs.get k
  | _, _ => none

/-- Indexing `v[i]` for a numeric literal index in JS: arrays index their
elements, strings index their characters, objects look the numeral up as a
property name; anything else gives `undefined`. -/
def jsIndex (v : JVal) (i : Nat) : Option JVal :=
  match v with
  | .jarr xs => xs.toList[i]?
  | .jobj fs => fs.get (toString i)
  | .jstr s => (s.toList[i]?).map (fun c => .jstr (String.mk [c]))
  | _ => none

/-- The chatbot slot `result?.data?.[1]` of the remote result
(MedgemmaAgent.ts line 116): the optional chain yields `undefined` when
`result.data` is `null`/`undefined`. -/
def chatbotSlot (r : JVal) : Option JVal :=
  match jGet r "data" with
  | some .jnull => none
  | some d => jsIndex d 1
  | none => none

/-- The state slot `result?.data?.[2]` of the remote result
(MedgemmaAgent.ts line 117). -/
def stateSlot (r : JVal) : Option JVal :=
  match jGet r "data" with
  | some .jnull => none
  | some d => jsIndex d 2
  | none => none

/-- JS `Array.isArray` applied to a possibly-`undefined` value. -/
def optIsArr : Option JVal → Bool
  | some (.jarr _) => true
  | _ => false

/-- The history-adoption branch of `handleMessage` (MedgemmaAgent.ts lines
116-122): when either recognized slot is an array, the new history is the
state slot when it is an array, else the chatbot slot when it is an array,
else the previous history; when neither slot is an array the branch is not
taken (`none`). -/
def adoptedHistory (prev : List JVal) (r : JVal) : Option (List JVal) :=
  if optIsArr (stateSlot r) || optIsArr (chatbotSlot r) then
    some (match stateSlot r with
          | some (.jarr xs) => xs.toList
          | _ =>
            match chatbotSlot r with
            | some (.jarr xs) => xs.toList
            | _ => prev)
  else none

/-- The expression `result?.data ?? result`, the argument handed to `parseText` on the
non-history branch (MedgemmaAgent.ts line 125). -/
def dataOrSelf (r : JVal) : JVal :=
  match jGet r "data" with
  | some .jnull => r
  | some d => d
  | none => r

/-- JS `a || b` on two possibly-absent strings: the left value when it is
truthy (a non-empty string), otherwise the right value. -/
def jsOrOpt (a b : Option String) : Option String :=
  match a with
  | some s => if s = "" then b else some s
  | none => b

/-- JS `a || d` with a string default: the environment value when truthy,
else the default. -/
def jsOrDefault (a : Option String) (d : String) : String :=
  match a with
  | some s => if s = "" then d else s
  | none => d

/-- Template-literal interpolation of a possibly-unset environment value:
JS renders `undefined` as the string `"undefined"`. -/
def jsTemplate (a : Option String) : String :=
  match a with
  | some s => s
  | none => "undefined"

/-- The environment configuration consumed by the agent:
`GRADIO_BASE_URL`, `GRADIO_API_NAME` and `GRADIO_PREDICT_PATH`, each a
string or unset. -/
structure Config where
  baseUrl : Option String
  apiName : Option String
  predictPath : Option String

/-- The endpoint path used for the predict call:
`(process.env.GRADIO_API_NAME as string) || "/chat"` (line 61). -/
def callApiName (cfg : Config) : String :=
  jsOrDefault cfg.apiName "/chat"

/-- The diagnostic hint attached to every failure message
(MedgemmaAgent.ts line 140). -/
def hintOf (cfg : Config) : String :=
  "Gradio call failed (baseUrl=" ++ jsTemplate cfg.baseUrl ++ ", apiName=" ++
    jsOrDefault cfg.apiName (jsOrDefault cfg.predictPath "/chat") ++ ")"

/-- An inbound message attachment: the `type` discriminator and the four
URL fields probed by `handleMessage`, each possibly absent. -/
structure Attachment where
  type : Option String
  image_url : Option String
  asset_url : Option String
  thumb_url : Option String
  og_scrape_url : Option String

/-- An inbound chat message: its text, the machine-generated flag, and its
attachments (the whole list may be absent, `?? []`). -/
structure Message where
  text : Option String
  ai_generated : Bool
  attachments : Option (List Attachment)

/-- A `message.new` event: the message may be absent. -/
structure Event where
  message : Option Message

/-- The post-chain filter of `imageUrls` (MedgemmaAgent.ts line 77):
`typeof url === 'string' && url.length > 0`, as an `Option String`
refinement. -/
def urlFilter (u : Option String) : Option String :=
  match u with
  | some s => if s.length > 0 then some s else none
  | none => none

/-- The image URL extraction of `handleMessage` (MedgemmaAgent.ts lines
68-77): keep attachments whose `type` is `"image"`, take
`image_url || asset_url || thumb_url || og_scrape_url` for each, then keep
only the values that are non-empty strings. -/
def imageUrls (attachments : List Attachment) : List String :=
  ((attachments.filter (fun a => a.type = some "image")).map
      (fun a => jsOrOpt a.image_url (jsOrOpt a.asset_url
          (jsOrOpt a.thumb_url a.og_scrape_url)))).filterMap urlFilter

/-- An opaque file handle produced by `handle_file` from a URL. -/
structure FileHandle where
  url : String

/-- The collaborator `mod.handle_file(url)`: wraps the URL into an opaque handle. -/
def handle_file (url : String) : FileHandle :=
  ⟨url⟩

/-- The payload `{ text, files }` sent to the remote endpoint (lines
79-82). -/
structure UserMessage where
  text : Option String
  files : List FileHandle

/-- The two call styles attempted against the remote endpoint:
`predict(apiName, { message_dict: userMessage })` and
`predict(apiName, [userMessage, history])`. -/
inductive CallStyle where
  | keyword (m : UserMessage)
  | positional (m : UserMessage) (hist : List JVal)

/-- The behaviour of one remote predict attempt: it resolves to a value
after `t` milliseconds, rejects with an error message after `t`
milliseconds, or never settles. -/
inductive PredictResult where
  | resolves (v : JVal) (t : Nat)
  | rejects (msg : String) (t : Nat)
  | hangs

/-- The function `tryPredict` (MedgemmaAgent.ts lines 91-98): attempt the keyword style
first; if that attempt rejects, make exactly one retry with the positional
style (its settle time adds to the first attempt's); a first attempt that
resolves or never settles causes no retry.  Returns the list of calls made
together with the combined outcome. -/
def tryPredict (predict : CallStyle → PredictResult) (m : UserMessage)
    (hist : List JVal) : List CallStyle × PredictResult :=
  match predict (.keyword m) with
  | .resolves v t => ([.keyword m], .resolves v t)
  | .rejects _ t1 =>
      match predict (.positional m hist) with
      | .resolves v t2 => ([.keyword m, .positional m hist], .resolves v (t1 + t2))
      | .rejects msg t2 => ([.keyword m, .positional m hist], .rejects msg (t1 + t2))
      | .hangs => ([.keyword m, .positional m hist], .hangs)
  | .hangs => ([.keyword m], .hangs)

/-- The settled outcome of the awaited call: a value or an error. -/
inductive CallOutcome where
  | ok (v : JVal)
  | error (msg : String)

/-- The combinator `withTimeout` (MedgemmaAgent.ts lines 85-89): the wrapped promise's
settlement wins when it happens strictly before `ms` milliseconds;
otherwise the timer rejects with `MedGemma timed out` at `ms`.  Returns
the outcome together with the time at which the awaited promise settles. -/
def withTimeout (r : PredictResult) (ms : Nat) : CallOutcome × Nat :=
  match r with
  | .resolves v t => if t < ms then (.ok v, t) else (.error "MedGemma timed out", ms)
  | .rejects m t => if t < ms then (.error m, t) else (.error "MedGemma timed out", ms)
  | .hangs => (.error "MedGemma timed out", ms)

/-- One chat-side effect performed by the handler, in execution order:
placeholder creation (`channel.sendMessage`), an indicator event
(`channel.sendEvent`), a remote predict call, or a placeholder text
mutation (`chatClient.partialUpdateMessage`). -/
inductive Effect where
  | sendMessage (text : String) (ai_generated : Bool)
  | sendEvent (ty : String) (ai_state : Option String) (cid : String) (message_id : String)
  | predictCall (style : CallStyle)
  | partialUpdateMessage (message_id : String) (text : String)

/-- The mutable agent state touched by the handler. -/
structure AgentState where
  history : List JVal
  lastInteractionTs : Nat

/-- The handler's result: the trace of chat-side effects, the stored
conversation history afterwards, and the last-interaction timestamp. -/
structure HandleOutput where
  effects : List Effect
  history : List JVal
  lastInteractionTs : Nat

/-- The conversion `String(lastReply || "")` (line 129) where `lastReply` may at runtime
be any JS value pulled out of an adopted history (or `undefined`, when the
adopted last pair has no index 1). -/
def jsStringOrEmpty (v : Option JVal) : String :=
  match v with
  | none => ""
  | some v => if jsTruthy v then jsToString v else ""

/-- The success path after the remote result arrives (MedgemmaAgent.ts
lines 115-136): adopt a history-shaped slot wholesale and reply with the
last pair's index-1 entry, or fall back to `parseText` over
`result?.data ?? result`; then one placeholder text mutation and one
indicator clear.  Returns the tail of the effect trace and the stored
history afterwards. -/
def successTail (pid cid : String) (hist : List JVal) (result : JVal) :
    List Effect × List JVal :=
  match adoptedHistory hist result with
  | some newHistory =>
      let lastReply : Option JVal :=
        match newHistory.getLast? with
        | some el => jsIndex el 1
        | none => some (.jstr "")
      ([.partialUpdateMessage pid (jsStringOrEmpty lastReply),
        .sendEvent "ai_indicator.clear" none cid pid], newHistory)
  | none =>
      ([.partialUpdateMessage pid
          (jsStringOrEmpty (some (.jstr (parseText (dataOrSelf result))))),
        .sendEvent "ai_indicator.clear" none cid pid], hist)

/-- The catch path (MedgemmaAgent.ts lines 138-156): `ERROR` indicator,
one placeholder text mutation to `message - hint`, then the indicator
clear. -/
def failureTail (cfg : Config) (pid cid : String) (errMessage : String) :
    List Effect :=
  [.sendEvent "ai_indicator.update" (some "AI_STATE_ERROR") cid pid,
   .partialUpdateMessage pid (errMessage ++ " - " ++ hintOf cfg),
   .sendEvent "ai_indicator.clear" none cid pid]

/-- The tail of the handler's effect trace once the awaited call settled:
the success path (`try` body after the `await`) on `ok`, the catch path on
`error` (which leaves the stored history untouched). -/
def outcomeTail (cfg : Config) (pid cid : String) (hist : List JVal) :
    CallOutcome → List Effect × List JVal
  | .ok result => successTail pid cid hist result
  | .error msg => (failureTail cfg pid cid msg, hist)

/-- The handler `handleMessage` (MedgemmaAgent.ts lines 42-158) of an initialized
agent, as a pure function of the configuration, the remote endpoint's
behaviour `predict`, the id `pid` (and channel cid `cid`) of the
placeholder the backend returns from `sendMessage`, the current clock
value `now`, the agent state and the inbound event.  Guarded events
produce no effect at all; otherwise the trace is: placeholder creation,
`THINKING` indicator, the predict call(s), then the success or failure
tail. -/
def handleMessage (cfg : Config) (predict : CallStyle → PredictResult)
    (pid cid : String) (now : Nat) (st : AgentState) (e : Event) :
    HandleOutput :=
  match e.message with
  | none => ⟨[], st.history, st.lastInteractionTs⟩
  | some m =>
    if m.ai_generated then ⟨[], st.history, st.lastInteractionTs⟩
    else
      let userMessage : UserMessage :=
        ⟨m.text, (imageUrls (m.attachments.getD [])).map handle_file⟩
      let tp := tryPredict predict userMessage st.history
      let tail := outcomeTail cfg pid cid st.history (withTimeout tp.2 45000).1
      ⟨[Effect.sendMessage "" true,
        Effect.sendEvent "ai_indicator.update" (some "AI_STATE_THINKING") cid pid]
       ++ tp.1.map Effect.predictCall ++ tail.1,
       tail.2, now⟩

/-- The outcome of one step of `dispose`'s collaborators: the call returns
normally or throws. -/
inductive StepResult where
  | ok
  | threw (msg : String)

/-- The side effects `dispose` performs, in order. -/
inductive DisposeEffect where
  | off
  | close
  | disconnectUser

/-- What a `dispose` run did: which collaborator calls it made and whether
the returned promise rejected (with which message). -/
structure DisposeOutcome where
  effects : List DisposeEffect
  raised : Option String

/-- The method `dispose` (MedgemmaAgent.ts lines 17-21): unsubscribe the handler,
call `close` on the optional remote connection handle inside a
`try/catch` that swallows any error (skipping the call when the handle
was never set), then await `disconnectUser` — whose error, if any, is not
caught and rejects the `dispose` promise. -/
def dispose (hasClient : Bool) (closeResult : StepResult)
    (disconnectResult : StepResult) : DisposeOutcome :=
  let closeEffs := if hasClient then [DisposeEffect.close] else []
  -- the try/catch around close discards closeResult entirely
  match disconnectResult with
  | .ok => ⟨[DisposeEffect.off] ++ closeEffs ++ [DisposeEffect.disconnectUser], none⟩
  | .threw m => ⟨[DisposeEffect.off] ++ closeEffs ++ [DisposeEffect.disconnectUser], some m⟩

/-- Recognizes a placeholder-creation effect (`channel.sendMessage`). -/
def isCreate : Effect → Bool
  | .sendMessage _ _ => true
  | _ => false

/-- Recognizes an indicator transition to cleared
(`sendEvent` of type `ai_indicator.clear`). -/
def isClear : Effect → Bool
  | .sendEvent ty _ _ _ => ty = "ai_indicator.clear"
  | _ => false

/-- Recognizes a text mutation of the message with id `pid`
(`partialUpdateMessage`). -/
def isTextUpdate (pid : String) : Effect → Bool
  | .partialUpdateMessage id _ => id = pid
  | _ => false

/-- A well-formed conversation pair `[userText, assistantText]` as the JS
value the remote endpoint stores in its history table. -/
def pairJ (u a : String) : JVal :=
  .jarr (.cons (.jstr u) (.cons (.jstr a) .nil))

/-- A history of well-formed pairs, as the stored JS value list. -/
def encodeHistory (h : List (String × String)) : List JVal :=
  h.map (fun p => pairJ p.1 p.2)

/-- A present, non-empty string, else `none` (the spec's notion of a
usable URL field). -/
def nonEmptyStr (o : Option String) : Option String :=
  o.bind fun s => if s = "" then none else some s

/-- Modelled from the spec (§4.3 step 5, for comparison with the code's
`imageUrls`): for one image attachment, the first non-empty URL in the
preference order `image_url`, `asset_url`, `thumb_url`, `og_scrape_url`,
or `none` when every field is absent or empty. -/
def firstNonEmptyUrl (a : Attachment) : Option String :=
  (nonEmptyStr a.image_url).orElse fun _ =>
    (nonEmptyStr a.asset_url).orElse fun _ =>
      (nonEmptyStr a.thumb_url).orElse fun _ => nonEmptyStr a.og_scrape_url

/-- Modelled from the spec (§4.3 step 5 / §8, for comparison with the
code's `imageUrls`): keep exactly the attachments whose type is `image`,
in attachment order, resolve each to its first non-empty URL, and drop
image attachments with no non-empty URL. -/
def specImageUrls (attachments : List Attachment) : List String :=
  (attachments.filter (fun a => a.type = some "image")).filterMap firstNonEmptyUrl

/-- A configuration fixture: a base URL, no explicit API name, no legacy
predict path. -/
def cfgEx : Config :=
  ⟨some "https://x.gradio.live", none, none⟩

/-- A plain inbound user message fixture with no attachments. -/
def msgEx : Message :=
  ⟨some "hi", false, none⟩

/-- The remote-result fixture of the text-extraction example:
the JS value of the literal with a `data` array holding an empty string,
an object with a `response` property, and a plain string. -/
def exResult : JVal :=
  .jobj (.cons "data"
    (.jarr (.cons (.jstr "")
      (.cons (.jobj (.cons "response" (.jstr "hello") .nil))
        (.cons (.jstr "world") .nil)))) .nil)

/-- A remote-result fixture whose state slot (`data[2]`) carries the
one-pair history table `[["q", "a"]]`. -/
def histResult : JVal :=
  .jobj (.cons "data"
    (.jarr (.cons .jnull
      (.cons .jnull
        (.cons (.jarr (.cons (pairJ "q" "a") .nil)) .nil)))) .nil)

/-- A remote-result fixture where both recognized slots are arrays:
the chatbot slot (`data[1]`) holds `[["u", "b"]]` and the state slot
(`data[2]`) holds `[["q", "a"]]`. -/
def bothSlotsResult : JVal :=
  .jobj (.cons "data"
    (.jarr (.cons .jnull
      (.cons (.jarr (.cons (pairJ "u" "b") .nil))
        (.cons (.jarr (.cons (pairJ "q" "a") .nil)) .nil)))) .nil)

/-- A remote-result fixture where only the chatbot slot (`data[1]`) is an
array (`[["u", "b"]]`); the state slot is a plain string. -/
def chatbotOnlyResult : JVal :=
  .jobj (.cons "data"
    (.jarr (.cons .jnull
      (.cons (.jarr (.cons (pairJ "u" "b") .nil))
        (.cons (.jstr "x") .nil)))) .nil)

/-- A remote endpoint whose keyword-style call rejects and whose
positional-style retry also rejects. -/
def retryRejPredict : CallStyle → PredictResult
  | .keyword _ => .rejects "e1" 5
  | .positional _ _ => .rejects "e2" 7

/-- A remote endpoint whose calls never settle. -/
def hangPredict : CallStyle → PredictResult :=
  fun _ => .hangs

/-- Attachment fixture: an image attachment carrying only `image_url`. -/
def attImg1 : Attachment :=
  ⟨some "image", some "u1", none, none, none⟩

/-- Attachment fixture: a non-image (file) attachment. -/
def attFile : Attachment :=
  ⟨some "file", none, none, none, none⟩

/-- Attachment fixture: an image attachment carrying only `thumb_url`. -/
def attImg2 : Attachment :=
  ⟨some "image", none, none, some "u2", none⟩

end Medgemma

namespace Medgemma

/-- Helper: a string has positive length exactly when it is non-empty. -/
theorem strLengthPos (s : String) : s.length > 0 ↔ s ≠ "" := by
  constructor
  · intro h he; subst he; simp at h
  · intro h
    refine Nat.pos_of_ne_zero fun hz => h ?_
    cases s with
    | mk data =>
      cases data with
      | nil => rfl
      | cons a l => simp [String.length] at hz

/-- Helper: a mapped predict-call list contributes nothing to a count of
non-predict effects. -/
theorem countP_map_predictCall (p : Effect → Bool)
    (hp : ∀ s, p (.predictCall s) = false) (styles : List CallStyle) :
    (styles.map Effect.predictCall).countP p = 0 := by
  rw [List.countP_eq_zero]
  intro a ha
  rcases List.mem_map.1 ha with ⟨s, _, rfl⟩
  simp [hp]

/-- Helper: the effect trace of a non-guarded exchange decomposes into the
placeholder creation, the `THINKING` indicator, the predict calls and the
outcome tail. -/
theorem handleMessage_effects_decomp (cfg : Config)
    (predict : CallStyle → PredictResult) (pid cid : String) (now : Nat)
    (st : AgentState) (text : Option String)
    (atts : Option (List Attachment)) :
    (handleMessage cfg predict pid cid now st ⟨some ⟨text, false, atts⟩⟩).effects =
      [Effect.sendMessage "" true,
       Effect.sendEvent "ai_indicator.update" (some "AI_STATE_THINKING") cid pid]
      ++ ((tryPredict predict ⟨text, (imageUrls (atts.getD [])).map handle_file⟩
            st.history).1.map Effect.predictCall)
      ++ (outcomeTail cfg pid cid st.history
            (withTimeout (tryPredict predict
              ⟨text, (imageUrls (atts.getD [])).map handle_file⟩
              st.history).2 45000).1).1 := rfl

/-- Helper: the stored history after a non-guarded exchange is the outcome
tail's history. -/
theorem handleMessage_history_decomp (cfg : Config)
    (predict : CallStyle → PredictResult) (pid cid : String) (now : Nat)
    (st : AgentState) (text : Option String)
    (atts : Option (List Attachment)) :
    (handleMessage cfg predict pid cid now st ⟨some ⟨text, false, atts⟩⟩).history =
      (outcomeTail cfg pid cid st.history
        (withTimeout (tryPredict predict
          ⟨text, (imageUrls (atts.getD [])).map handle_file⟩
          st.history).2 45000).1).2 := rfl

/-- Helper: on both the success and the failure path, the outcome tail
holds no placeholder creation, exactly one indicator clear, and exactly
one text mutation of the placeholder. -/
theorem outcomeTail_counts (cfg : Config) (pid cid : String)
    (hist : List JVal) (oc : CallOutcome) :
    ((outcomeTail cfg pid cid hist oc).1.countP isCreate = 0) ∧
    ((outcomeTail cfg pid cid hist oc).1.countP isClear = 1) ∧
    ((outcomeTail cfg pid cid hist oc).1.countP (isTextUpdate pid) = 1) := by
  rcases oc with r | msg
  · rcases h : adoptedHistory hist r with _ | nh <;>
      refine ⟨?_, ?_, ?_⟩ <;>
      simp [outcomeTail, successTail, h, isCreate, isClear, isTextUpdate,
        List.countP_cons, List.countP_nil]
  · refine ⟨?_, ?_, ?_⟩ <;>
      simp [outcomeTail, failureTail, isCreate, isClear, isTextUpdate,
        List.countP_cons, List.countP_nil]

/-- Helper: a positive count of placeholder text mutations yields one
explicitly. -/
theorem exists_textUpdate_of_countP (pid : String) (l : List Effect)
    (h : l.countP (isTextUpdate pid) = 1) :
    ∃ s, Effect.partialUpdateMessage pid s ∈ l := by
  have hpos : 0 < l.countP (isTextUpdate pid) := by omega
  rcases List.countP_pos_iff.1 hpos with ⟨a, ha, hpa⟩
  cases a with
  | partialUpdateMessage id t =>
      have hid : id = pid := by simpa [isTextUpdate] using hpa
      exact ⟨t, hid ▸ ha⟩
  | sendMessage t b => simp [isTextUpdate] at hpa
  | sendEvent ty st c mid => simp [isTextUpdate] at hpa
  | predictCall s => simp [isTextUpdate] at hpa

/-- C2: for every non-machine-generated inbound message handled by an
active agent, exactly one placeholder assistant message is created (empty
text, flagged machine-generated), exactly one indicator transition to
cleared occurs, exactly one text mutation of that placeholder occurs, and
the placeholder's final text is a definite string — on both the success
and the failure path. -/
theorem handleMessage_exchange_discipline (cfg : Config)
    (predict : CallStyle → PredictResult) (pid cid : String) (now : Nat)
    (st : AgentState) (text : Option String)
    (atts : Option (List Attachment)) :
    ((handleMessage cfg predict pid cid now st
        ⟨some ⟨text, false, atts⟩⟩).effects.countP isCreate = 1) ∧
    (Effect.sendMessage "" true ∈
      (handleMessage cfg predict pid cid now st
        ⟨some ⟨text, false, atts⟩⟩).effects) ∧
    ((handleMessage cfg predict pid cid now st
        ⟨some ⟨text, false, atts⟩⟩).effects.countP isClear = 1) ∧
    ((handleMessage cfg predict pid cid now st
        ⟨some ⟨text, false, atts⟩⟩).effects.countP (isTextUpdate pid) = 1) ∧
    ∃ s, Effect.partialUpdateMessage pid s ∈
      (handleMessage cfg predict pid cid now st
        ⟨some ⟨text, false, atts⟩⟩).effects := by
  rw [handleMessage_effects_decomp]
  obtain ⟨hc0, hc1, hc2⟩ :=
    outcomeTail_counts cfg pid cid st.history
      (withTimeout (tryPredict predict
        ⟨text, (imageUrls (atts.getD [])).map handle_file⟩ st.history).2 45000).1
  obtain ⟨s, hs⟩ := exists_textUpdate_of_countP pid _ hc2
  refine ⟨?_, ?_, ?_, ?_, ⟨s, ?_⟩⟩ <;>
    simp [List.countP_append, List.countP_cons, List.countP_nil,
      countP_map_predictCall, isCreate, isClear, isTextUpdate,
      hc0, hc1, hc2, hs]

/-- C1: for every inbound message event whose message is flagged
machine-generated, the bridge's message handler performs no side effect at
all — no placeholder message, no indicator event, no remote predict call —
and leaves the stored history and the last-interaction timestamp
untouched (loop-prevention guard, MedgemmaAgent.ts line 43). -/
theorem handleMessage_machine_generated_guard (cfg : Config)
    (predict : CallStyle → PredictResult) (pid cid : String) (now : Nat)
    (st : AgentState) (text : Option String)
    (atts : Option (List Attachment)) :
    handleMessage cfg predict pid cid now st ⟨some ⟨text, true, atts⟩⟩ =
      ⟨[], st.history, st.lastInteractionTs⟩ := rfl

/-- C4: when no history-shaped data is present in the remote result, the
reply is the recursive depth-first string extraction `parseText` over
`result?.data ?? result`; on the result literal with
`data = ["", ⟨response: "hello"⟩, "world"]` neither slot is an array, the
extraction skips the empty leaf and joins the rest with a newline, and the
handler writes exactly `"hello\nworld"` into the placeholder. -/
theorem parseText_extraction_example :
    parseText (dataOrSelf exResult) = "hello\nworld" ∧
    adoptedHistory [] exResult = none ∧
    (handleMessage cfgEx (fun _ => .resolves exResult 100) "pid" "cid" 7
        ⟨[], 0⟩ ⟨some msgEx⟩).effects =
      [.sendMessage "" true,
       .sendEvent "ai_indicator.update" (some "AI_STATE_THINKING") "cid" "pid",
       .predictCall (.keyword ⟨some "hi", []⟩),
       .partialUpdateMessage "pid" "hello\nworld",
       .sendEvent "ai_indicator.clear" none "cid" "pid"] :=
  ⟨rfl, rfl, rfl⟩

/-- C6: the remote call is attempted first with the keyword-style payload;
if and only if that first attempt fails, exactly one retry is made with
the positional call style, and a failure of the retry is surfaced as the
combined outcome with no further attempts (MedgemmaAgent.ts lines
91-98). -/
theorem tryPredict_compat_retry (predict : CallStyle → PredictResult)
    (m : UserMessage) (hist : List JVal) :
    (∀ v t, predict (.keyword m) = .resolves v t →
        tryPredict predict m hist = ([.keyword m], .resolves v t)) ∧
    (∀ msg1 t1, predict (.keyword m) = .rejects msg1 t1 →
        (tryPredict predict m hist).1 = [.keyword m, .positional m hist] ∧
        (∀ v t2, predict (.positional m hist) = .resolves v t2 →
            (tryPredict predict m hist).2 = .resolves v (t1 + t2)) ∧
        (∀ msg2 t2, predict (.positional m hist) = .rejects msg2 t2 →
            (tryPredict predict m hist).2 = .rejects msg2 (t1 + t2))) := by
  refine ⟨fun v t h => ?_, fun msg1 t1 h => ?_⟩
  · simp [tryPredict, h]
  · refine ⟨?_, fun v t2 h2 => ?_, fun msg2 t2 h2 => ?_⟩
    · rcases h2 : predict (.positional m hist) <;> simp [tryPredict, h, h2]
    · simp [tryPredict, h, h2]
    · simp [tryPredict, h, h2]

/-- Witness for C6: with an endpoint rejecting the keyword call after 5 ms
and the positional retry after 7 ms, both call styles are attempted in
order and the retry's error surfaces after the combined 12 ms. -/
theorem tryPredict_compat_retry_witness :
    (tryPredict retryRejPredict ⟨some "hi", []⟩ []).1 =
      [.keyword ⟨some "hi", []⟩, .positional ⟨some "hi", []⟩ []] ∧
    (tryPredict retryRejPredict ⟨some "hi", []⟩ []).2 = .rejects "e2" 12 := by
  have h := tryPredict_compat_retry retryRejPredict ⟨some "hi", []⟩ []
  refine ⟨(h.2 "e1" 5 rfl).1, ?_⟩
  simpa using (h.2 "e1" 5 rfl).2.2 "e2" 7 rfl

/-- C9 counterexample: `dispose` does not swallow every disposal-path
error — an error thrown by disconnecting the chat session rejects the
`dispose` promise (the `disconnectUser()` call on MedgemmaAgent.ts line 20
is outside the `try/catch`), refuting the claim that dispose never
raises. -/
theorem dispose_disconnect_error_escapes :
    ¬ ((dispose true StepResult.ok (StepResult.threw "boom")).raised = none) :=
  fun h => Option.noConfusion h

/-- C9 amended: dispose is safe on an agent whose initialization partially
failed — closing an unset connection handle is skipped (no-op), and an
error thrown by closing the remote connection is swallowed — but an error
from disconnecting the chat session propagates. -/
theorem dispose_swallows_close_errors (hasClient : Bool)
    (closeResult : StepResult) :
    (dispose hasClient closeResult StepResult.ok).raised = none ∧
    (dispose false closeResult StepResult.ok).effects =
      [DisposeEffect.off, DisposeEffect.disconnectUser] :=
  ⟨rfl, rfl⟩

/-- C10: when both recognized slots of the remote result are arrays, the
state slot `result.data[2]` is adopted wholesale as the new history and
the chatbot slot is ignored; the chatbot slot `result.data[1]` is adopted
only when the state slot is not an array (MedgemmaAgent.ts lines
116-123). -/
theorem adoptedHistory_state_slot_precedence (prev : List JVal) (r : JVal) :
    (∀ s c, stateSlot r = some (.jarr s) → chatbotSlot r = some (.jarr c) →
        adoptedHistory prev r = some s.toList) ∧
    (∀ c, optIsArr (stateSlot r) = false → chatbotSlot r = some (.jarr c) →
        adoptedHistory prev r = some c.toList) := by
  constructor
  · intro s c hs hc
    simp [adoptedHistory, hs, hc, optIsArr]
  · intro c hs hc
    rcases h : stateSlot r with _ | v
    · simp [adoptedHistory, h, hc, optIsArr]
    · cases v <;> simp_all [adoptedHistory, optIsArr]

/-- Witness for C10: on a result whose chatbot slot holds the pair table
`[["u","b"]]` and whose state slot holds `[["q","a"]]`, the state slot
wins; on a result whose state slot is a plain string, the chatbot slot is
adopted. -/
theorem adoptedHistory_state_slot_precedence_witness :
    adoptedHistory [] bothSlotsResult = some [pairJ "q" "a"] ∧
    adoptedHistory [] chatbotOnlyResult = some [pairJ "u" "b"] := by
  constructor
  · exact (adoptedHistory_state_slot_precedence [] bothSlotsResult).1
      (.cons (pairJ "q" "a") .nil) (.cons (pairJ "u" "b") .nil) rfl rfl
  · exact (adoptedHistory_state_slot_precedence [] chatbotOnlyResult).2
      (.cons (pairJ "u" "b") .nil) rfl rfl

/-- Helper: the reply extracted from an adopted history of well-formed
pairs is the assistant text of its last pair, the empty string when the
history is empty. -/
theorem lastReply_encodeHistory (H : List (String × String)) :
    jsStringOrEmpty
      (match (encodeHistory H).getLast? with
       | some el => jsIndex el 1
       | none => some (.jstr "")) =
      (H.getLast?.map Prod.snd).getD "" := by
  rw [encodeHistory, List.getLast?_map]
  rcases h : H.getLast? with _ | p
  · simp [jsStringOrEmpty, jsTruthy]
  · rcases p with ⟨u, a⟩
    by_cases ha : a = "" <;>
      simp [pairJ, jsIndex, JArr.toList, jsStringOrEmpty, jsTruthy,
        jsToString, ha]

/-- Helper: the success tail under an adopted pair-shaped history `H`
updates the placeholder with `H`'s last assistant text and stores `H`. -/
theorem successTail_encodeHistory (pid cid : String) (hist : List JVal)
    (r : JVal) (H : List (String × String))
    (h : adoptedHistory hist r = some (encodeHistory H)) :
    successTail pid cid hist r =
      ([.partialUpdateMessage pid ((H.getLast?.map Prod.snd).getD ""),
        .sendEvent "ai_indicator.clear" none cid pid], encodeHistory H) := by
  simp [successTail, h, lastReply_encodeHistory]

/-- C3: if the remote call resolves with a result whose recognized history
slot decodes to the pair table `H`, the stored conversation history after
the exchange equals `H` exactly (full replacement of any prior history),
and the reply written into the placeholder is the assistant text of `H`'s
last pair (the empty string when `H` is empty). -/
theorem handleMessage_history_replacement (cfg : Config)
    (predict : CallStyle → PredictResult) (pid cid : String) (now : Nat)
    (st : AgentState) (text : Option String)
    (atts : Option (List Attachment)) (v : JVal) (t : Nat)
    (H : List (String × String))
    (hp : predict (.keyword ⟨text, (imageUrls (atts.getD [])).map handle_file⟩) =
      .resolves v t)
    (ht : t < 45000)
    (hH : adoptedHistory st.history v = some (encodeHistory H)) :
    (handleMessage cfg predict pid cid now st
        ⟨some ⟨text, false, atts⟩⟩).history = encodeHistory H ∧
    Effect.partialUpdateMessage pid ((H.getLast?.map Prod.snd).getD "") ∈
      (handleMessage cfg predict pid cid now st
        ⟨some ⟨text, false, atts⟩⟩).effects := by
  have htp : (tryPredict predict
      ⟨text, (imageUrls (atts.getD [])).map handle_file⟩ st.history).2 =
      .resolves v t := by
    simp [tryPredict, hp]
  constructor
  · rw [handleMessage_history_decomp, htp]
    simp [withTimeout, ht, outcomeTail, successTail_encodeHistory _ _ _ _ _ hH]
  · rw [handleMessage_effects_decomp, htp]
    simp [withTimeout, ht, outcomeTail, successTail_encodeHistory _ _ _ _ _ hH]

/-- Witness for C3: an endpoint resolving in 3 ms with the state slot
`[["q","a"]]` makes the stored history exactly that table and the
placeholder text `"a"`. -/
theorem handleMessage_history_replacement_witness :
    (handleMessage cfgEx (fun _ => .resolves histResult 3) "pid" "cid" 7
        ⟨[], 0⟩ ⟨some ⟨some "hi", false, none⟩⟩).history =
      encodeHistory [("q", "a")] ∧
    Effect.partialUpdateMessage "pid" "a" ∈
      (handleMessage cfgEx (fun _ => .resolves histResult 3) "pid" "cid" 7
        ⟨[], 0⟩ ⟨some ⟨some "hi", false, none⟩⟩).effects := by
  have h := handleMessage_history_replacement cfgEx
    (fun _ => .resolves histResult 3) "pid" "cid" 7 ⟨[], 0⟩ (some "hi") none
    histResult 3 [("q", "a")] rfl (by decide) rfl
  exact ⟨h.1, by simpa using h.2⟩

/-- Helper: a wrapped call that does not settle strictly within the bound
resolves as the timeout error, at the bound. -/
theorem withTimeout_unresolved (r : PredictResult)
    (h : r = .hangs ∨ (∃ v t, r = .resolves v t ∧ 45000 ≤ t) ∨
      (∃ m t, r = .rejects m t ∧ 45000 ≤ t)) :
    withTimeout r 45000 = (.error "MedGemma timed out", 45000) := by
  rcases h with h | ⟨v, t, rfl, ht⟩ | ⟨m, t, rfl, ht⟩
  · subst h; rfl
  · simp [withTimeout, Nat.not_lt.2 ht]
  · simp [withTimeout, Nat.not_lt.2 ht]

/-- C5: every remote call is awaited under a 45000 ms bound; when the
combined predict outcome does not settle strictly within the bound, the
exchange fails — the `ERROR` indicator fires and the placeholder's final
text is the timeout error string, which contains the configured endpoint
base URL and the call path (when the legacy `GRADIO_PREDICT_PATH`
variable is unset, the hint's path is exactly the call path). -/
theorem handleMessage_timeout_bound (cfg : Config)
    (predict : CallStyle → PredictResult) (pid cid : String) (now : Nat)
    (st : AgentState) (text : Option String)
    (atts : Option (List Attachment)) (b : String)
    (hb : cfg.baseUrl = some b) (hpp : cfg.predictPath = none)
    (hun : (tryPredict predict
        ⟨text, (imageUrls (atts.getD [])).map handle_file⟩ st.history).2 =
          .hangs ∨
      (∃ v t, (tryPredict predict
        ⟨text, (imageUrls (atts.getD [])).map handle_file⟩ st.history).2 =
          .resolves v t ∧ 45000 ≤ t) ∨
      (∃ m t, (tryPredict predict
        ⟨text, (imageUrls (atts.getD [])).map handle_file⟩ st.history).2 =
          .rejects m t ∧ 45000 ≤ t)) :
    (∀ r : PredictResult, (withTimeout r 45000).2 ≤ 45000) ∧
    Effect.sendEvent "ai_indicator.update" (some "AI_STATE_ERROR") cid pid ∈
      (handleMessage cfg predict pid cid now st
        ⟨some ⟨text, false, atts⟩⟩).effects ∧
    Effect.partialUpdateMessage pid ("MedGemma timed out - " ++ hintOf cfg) ∈
      (handleMessage cfg predict pid cid now st
        ⟨some ⟨text, false, atts⟩⟩).effects ∧
    "MedGemma timed out - " ++ hintOf cfg =
      "MedGemma timed out - Gradio call failed (baseUrl=" ++ b ++
        ", apiName=" ++ callApiName cfg ++ ")" := by
  refine ⟨?_, ?_, ?_, ?_⟩
  · intro r
    rcases r with ⟨v, t⟩ | ⟨m, t⟩ | _ <;> simp [withTimeout] <;> split <;> omega
  · rw [handleMessage_effects_decomp, withTimeout_unresolved _ hun]
    simp [outcomeTail, failureTail]
  · rw [handleMessage_effects_decomp, withTimeout_unresolved _ hun]
    simp [outcomeTail, failureTail]
  · rw [hintOf, hb, hpp, callApiName]
    simp only [jsTemplate, String.append_assoc]
    rw [← String.append_assoc,
      show ("MedGemma timed out - " : String) ++ "Gradio call failed (baseUrl=" =
        "MedGemma timed out - Gradio call failed (baseUrl=" from rfl]
    rfl

/-- Witness for C5: with an endpoint that never settles, the 45-second
bound fires, the error indicator is sent, and the placeholder ends with
the timeout string naming the base URL and the `/chat` call path. -/
theorem handleMessage_timeout_bound_witness :
    Effect.partialUpdateMessage "pid"
        ("MedGemma timed out - " ++ hintOf cfgEx) ∈
      (handleMessage cfgEx hangPredict "pid" "cid" 7 ⟨[], 0⟩
        ⟨some ⟨some "hi", false, none⟩⟩).effects ∧
    "MedGemma timed out - " ++ hintOf cfgEx =
      "MedGemma timed out - Gradio call failed " ++
        "(baseUrl=https://x.gradio.live, apiName=/chat)" := by
  have h := handleMessage_timeout_bound cfgEx hangPredict "pid" "cid" 7
    ⟨[], 0⟩ (some "hi") none "https://x.gradio.live" rfl rfl (Or.inl rfl)
  exact ⟨h.2.2.1, by simpa using h.2.2.2⟩

/-- Helper: the code's URL filter is the spec's non-empty refinement. -/
theorem urlFilter_eq_nonEmptyStr (o : Option String) :
    urlFilter o = nonEmptyStr o := by
  rcases o with _ | s
  · rfl
  · by_cases hs : s = ""
    · subst hs; simp [urlFilter, nonEmptyStr]
    · simp [urlFilter, nonEmptyStr, hs, (strLengthPos s).2 hs]

/-- Helper: filtering the JS `||` chain is the ordered first-non-empty
choice. -/
theorem urlFilter_jsOrOpt (x y : Option String) :
    urlFilter (jsOrOpt x y) =
      (nonEmptyStr x).orElse fun _ => urlFilter y := by
  rcases x with _ | s
  · simp [jsOrOpt, nonEmptyStr, Option.orElse]
  · by_cases hs : s = ""
    · subst hs; simp [jsOrOpt, nonEmptyStr, Option.orElse]
    · simp [jsOrOpt, nonEmptyStr, hs, Option.orElse, urlFilter,
        (strLengthPos s).2 hs]

/-- Helper: per attachment, the code's `||` chain plus filter equals the
spec's first-non-empty preference order. -/
theorem urlChain_eq_firstNonEmptyUrl (a : Attachment) :
    urlFilter (jsOrOpt a.image_url (jsOrOpt a.asset_url
        (jsOrOpt a.thumb_url a.og_scrape_url))) = firstNonEmptyUrl a := by
  rw [urlFilter_jsOrOpt, urlFilter_jsOrOpt, urlFilter_jsOrOpt,
    urlFilter_eq_nonEmptyStr, firstNonEmptyUrl]

/-- C7: the file list sent to the remote endpoint is built from exactly
the image-typed attachments in order, each resolved to its first
non-empty URL in the preference order `image_url`, `asset_url`,
`thumb_url`, `og_scrape_url`, dropping image attachments with no
non-empty URL; on the example attachment list the handler's keyword call
carries exactly `[handle u1, handle u2]`. -/
theorem imageUrls_image_attachments :
    (∀ atts, imageUrls atts = specImageUrls atts) ∧
    (handleMessage cfgEx (fun _ => .resolves (.jstr "ok") 3) "pid" "cid" 7
        ⟨[], 0⟩ ⟨some ⟨some "hi", false, some [attImg1, attFile, attImg2]⟩⟩).effects[2]? =
      some (.predictCall (.keyword
        ⟨some "hi", [handle_file "u1", handle_file "u2"]⟩)) := by
  constructor
  · intro atts
    rw [imageUrls, specImageUrls, List.filterMap_map]
    exact List.filterMap_congr fun a _ => urlChain_eq_firstNonEmptyUrl a
  · rfl

/-- C8 counterexample: on a successful exchange whose result carries no
history-shaped state (a plain string reply), the handler appends nothing —
the stored history stays empty instead of ending with the exchange's
`(userText, reply)` pair, refuting the claimed local accumulation. -/
theorem handleMessage_no_local_append :
    (handleMessage cfgEx (fun _ => .resolves (.jstr "hi there") 10) "pid"
        "cid" 7 ⟨[], 0⟩ ⟨some ⟨some "question", false, none⟩⟩).history = [] ∧
    ¬ ((handleMessage cfgEx (fun _ => .resolves (.jstr "hi there") 10) "pid"
        "cid" 7 ⟨[], 0⟩
        ⟨some ⟨some "question", false, none⟩⟩).history.getLast? =
      some (pairJ "question" "hi there")) :=
  ⟨rfl, fun h => Option.noConfusion h⟩

/-- C8 amended: when the exchange succeeds and the remote result contains
no history-shaped state, the stored conversation history is left exactly
unchanged — the bridge performs no local append of the `(userText, reply)`
pair. -/
theorem handleMessage_history_unchanged_without_state (cfg : Config)
    (predict : CallStyle → PredictResult) (pid cid : String) (now : Nat)
    (st : AgentState) (text : Option String)
    (atts : Option (List Attachment)) (v : JVal) (t : Nat)
    (hp : predict (.keyword ⟨text, (imageUrls (atts.getD [])).map handle_file⟩) =
      .resolves v t)
    (ht : t < 45000)
    (hnone : adoptedHistory st.history v = none) :
    (handleMessage cfg predict pid cid now st
        ⟨some ⟨text, false, atts⟩⟩).history = st.history := by
  have htp : (tryPredict predict
      ⟨text, (imageUrls (atts.getD [])).map handle_file⟩ st.history).2 =
      .resolves v t := by
    simp [tryPredict, hp]
  rw [handleMessage_history_decomp, htp]
  simp [withTimeout, ht, outcomeTail, successTail, hnone]

/-- Witness for C8's amended statement: a plain-string reply leaves the
initial empty history empty. -/
theorem handleMessage_history_unchanged_without_state_witness :
    (handleMessage cfgEx (fun _ => .resolves (.jstr "hi") 10) "pid" "cid" 7
        ⟨[], 0⟩ ⟨some ⟨some "q", false, none⟩⟩).history = [] :=
  handleMessage_history_unchanged_without_state cfgEx
    (fun _ => .resolves (.jstr "hi") 10) "pid" "cid" 7 ⟨[], 0⟩ (some "q")
    none (.jstr "hi") 10 rfl (by decide) rfl

end Medgemma
